import Mathlib

/-!
Shallow embedding of the TPP precondition-enforcement pass
(`lib/Standalone/TppEnforcePrecondition.cpp`) and of the TPP operation
traits (`lib/TPP/Dialect/Tpp/TppTraits.cpp`).

Machine integers (`int64_t` shape extents) are modelled as `Int`; all
extents reached by the pass are non-negative because the pattern requires
fully static shapes.  MLIR types are immutable and uniqued, so an
`ArrayRef<int64_t>` taken from a type before an operand variable is
reassigned still denotes the original shape; the embedding captures shapes
by value accordingly.
-/

/-- Element types that can appear on a tensor operand
(`FloatType`, `IndexType`, `IntegerType`, shaped element types, other). -/
inductive EType where
  | float (width : Nat)
  | index
  | integer (width : Nat)
  | tensor (elem : EType) (shape : List Int)
  | other

/-- Attributes produced by the fill-value builders.  A float literal value
is recorded as the integer it denotes (only 0 and 1 occur). -/
inductive Attr where
  | floatAttr (ty : EType) (val : Int)
  | indexAttr (val : Int)
  | intAttr (ty : EType) (val : Nat)
  | dense (ty : EType) (elem : Attr)

/-- `PadSIMDDimensionForGemm::getOneAttr` : the multiplicative identity of a
type, or none for unsupported types.  `APInt(width, 1)` truncates the value
to `width` bits, hence `1 % 2 ^ w`. -/
def getOneAttr : EType → Option Attr
  | .float w => some (.floatAttr (.float w) 1)
  | .index => some (.indexAttr 1)
  | .integer w => some (.intAttr (.integer w) (1 % 2 ^ w))
  | .tensor e s =>
      match getOneAttr e with
      | none => none
      | some a => some (.dense (.tensor e s) a)
  | .other => none

/-- Modelled from the spec: the external builder capability producing the
additive identity (zero) of an element type (`Builder::getZeroAttr`),
mirroring the shape of `getOneAttr`. -/
def getZeroAttr : EType → Option Attr
  | .float w => some (.floatAttr (.float w) 0)
  | .index => some (.indexAttr 0)
  | .integer w => some (.intAttr (.integer w) 0)
  | .tensor e s =>
      match getZeroAttr e with
      | none => none
      | some a => some (.dense (.tensor e s) a)
  | .other => none

/-- MLIR sentinel for a dynamic dimension (`ShapedType::kDynamicSize`). -/
def isDynamicDim (d : Int) : Bool := d = -1

/-- A value's type: either a shaped (tensor) type with a static-or-dynamic
extent list and an element type, or a non-shaped scalar type. -/
inductive MType where
  | shaped (shape : List Int) (elem : EType)
  | scalar (elem : EType)

def isShaped : MType → Bool
  | .shaped _ _ => true
  | .scalar _ => false

def getShapeT : MType → List Int
  | .shaped s _ => s
  | .scalar _ => []

def elemOfT : MType → EType
  | .shaped _ e => e
  | .scalar e => e

/-- The constant handed to `tensor::createPadHighOp` as pad value: the type
passed to `arith::ConstantOp` and the attribute built for it. -/
structure Fill where
  ty : EType
  attr : Option Attr

/-- An SSA value, tracking provenance of padding: either an opaque value of
a known type, or the result of `tensor::createPadHighOp` applied to a
source value with a given new type, fill constant and nofold flag. -/
inductive Val where
  | v (name : String) (ty : MType)
  | pad (newTy : MType) (source : Val) (fill : Fill) (nofold : Bool)

def Val.type : Val → MType
  | .v _ t => t
  | .pad t _ _ _ => t

def Val.padFill : Val → Option Fill
  | .v _ _ => none
  | .pad _ _ f _ => some f

def Val.nofoldFlag : Val → Option Bool
  | .v _ _ => none
  | .pad _ _ _ nf => some nf

/-- POD for GEMM operands (`PadSIMDDimensionForGemm::GemmOperands`). -/
structure GemmOperands where
  A : Val
  B : Val
  C : Val

/-- Number of binary digits of `n` (64 iterations of halving suffice for
every `int64_t` extent); structural on the fuel so that the kernel can
evaluate it. -/
def bitLenAux : Nat → Nat → Nat
  | 0, _ => 0
  | fuel + 1, n => if n = 0 then 0 else bitLenAux fuel (n / 2) + 1

def bitLen (n : Nat) : Nat := bitLenAux 64 n

/-- Round a non-negative integer to the nearest IEEE binary32 value
(round to nearest, ties to even), the result expressed as an integer.
This models the C++ conversion `(float)simdDim`: a float carries 24
significand bits, so integers up to `2 ^ 24` convert exactly and larger
ones round to a multiple of `2 ^ (bitLen n - 24)`. -/
def floatRound (n : Nat) : Nat :=
  if n ≤ 2 ^ 24 then n
  else
    let ulp := 2 ^ (bitLen n - 24)
    let q := n / ulp
    let r := n % ulp
    if 2 * r < ulp then ulp * q
    else if ulp < 2 * r then ulp * (q + 1)
    else if q % 2 = 0 then ulp * q else ulp * (q + 1)

/-- `16 * std::ceil((float)simdDim / 16.0)` from `padSIMDDimension`.
The only rounding in that expression is the int64-to-float conversion:
dividing a float by 16 in double precision, taking `ceil`, and scaling by
16 are all exact, so the whole expression equals
`16 * ⌈floatRound simdDim / 16⌉` over the integers. -/
def paddedSimdTarget (simdDim : Int) : Int :=
  ((16 * ((floatRound simdDim.toNat + 15) / 16) : Nat) : Int)

/-- `6 * std::ceil((float)parallelDim / 6.0)` from `padParallelDimension`.
After the int64-to-float conversion the remaining double-precision
division by 6 and `ceil` agree with exact rational arithmetic for every
extent below `2 ^ 52` (the quotient's rounding error is far below the
distance to the nearest integer), which covers all extents considered
here. -/
def paddedParallelTarget (parallelDim : Int) : Int :=
  ((6 * ((floatRound parallelDim.toNat + 5) / 6) : Nat) : Int)

/-- `PadSIMDDimensionForGemm::padSIMDDimension`: when the SIMD (trailing)
dimension of C is not a multiple of 16, pad C and B on their trailing
dimension to the target, C with the zero of C's element type and B with
the one of B's element type; both pads are created with `nofold = false`. -/
def padSIMDDimension (operands : GemmOperands) (simdDim : Int) : GemmOperands :=
  if simdDim % 16 = 0 then operands
  else
    let paddedSimd := paddedSimdTarget simdDim
    let shapeB := getShapeT operands.B.type
    let shapeC := getShapeT operands.C.type
    let newShapeC := [shapeC.getD 0 0, paddedSimd]
    let newShapeB := [shapeB.getD 0 0, paddedSimd]
    let elemC := elemOfT operands.C.type
    let elemB := elemOfT operands.B.type
    let padZero : Fill := ⟨elemC, getZeroAttr elemC⟩
    let padOne : Fill := ⟨elemB, getOneAttr elemB⟩
    let paddedC := Val.pad (.shaped newShapeC elemC) operands.C padZero false
    let paddedB := Val.pad (.shaped newShapeB elemB) operands.B padOne false
    { operands with C := paddedC, B := paddedB }

/-- `PadSIMDDimensionForGemm::padParallelDimension`: when the parallel
(leading) dimension of C is not a multiple of 6, pad C and A on their
leading dimension to the target.  The source builds the one-constant for
A's pad from operand B's element type (`operands.B.getType()`), while the
padded tensor type for A keeps A's element type; both pads are created
with `nofold = false`. -/
def padParallelDimension (operands : GemmOperands) (parallelDim : Int) : GemmOperands :=
  if parallelDim % 6 = 0 then operands
  else
    let paddedParallel := paddedParallelTarget parallelDim
    let shapeA := getShapeT operands.A.type
    let shapeC := getShapeT operands.C.type
    let newShapeC := [paddedParallel, shapeC.getD 1 0]
    let newShapeA := [paddedParallel, shapeA.getD 1 0]
    let elemC := elemOfT operands.C.type
    let elemA := elemOfT operands.A.type
    let elemB := elemOfT operands.B.type
    let padZero : Fill := ⟨elemC, getZeroAttr elemC⟩
    let padOne : Fill := ⟨elemB, getOneAttr elemB⟩
    let paddedC := Val.pad (.shaped newShapeC elemC) operands.C padZero false
    let paddedA := Val.pad (.shaped newShapeA elemA) operands.A padOne false
    { operands with C := paddedC, A := paddedA }

/-- A `linalg.generic` operation as the pattern sees it: its operand list
(A, B, C at positions 0, 1, 2), its library-call attribute, the external
eligibility predicates consumed as opaque accessors, and its opaque
attributes and body region, which the rewrite copies verbatim. -/
structure LinalgGenericOp where
  operands : List Val
  libraryCall : String
  hasTensorSemantics : Bool
  tppMark : Bool
  indexingMaps : String
  iteratorTypes : String
  region : String

/-- Default value for out-of-range operand access (non-shaped, so the
shape guard in `padDimensions` rejects it). -/
def defaultVal : Val := .v "" (.scalar .other)

/-- A single operand with a fully static shape: no dynamic extents. -/
def operandStatic (v : Val) : Bool :=
  match v.type with
  | .shaped s _ => s.all fun d => !(isDynamicDim d)
  | .scalar _ => true

/-- Modelled from the spec: `hasStaticShape` from `Standalone/TppUtils.cpp`
(not part of the provided sources) — all operand shapes are fully static,
i.e. contain no dynamic extents. -/
def hasStaticShape (op : LinalgGenericOp) : Bool :=
  op.operands.all operandStatic

/-- The compliance test of `padDimensions` (`§4.1 ShapeComplianceChecker`):
the trailing (SIMD) dimension is a multiple of 16 and the leading
(parallel) dimension a multiple of 6. -/
def isCompliant (shapeC : List Int) : Bool :=
  (shapeC.getD 1 0 % 16 = 0) && (shapeC.getD 0 0 % 6 = 0)

/-- The `tensor.extract_slice` built after the padded matmul; for static
offsets, sizes and strides its result shape is its `sizes` list. -/
structure ExtractSlice where
  offsets : List Int
  sizes : List Int
  strides : List Int

/-- `PadSIMDDimensionForGemm::padDimensions`: reject non-shaped operands,
reject already compliant C shapes, otherwise pad the SIMD then the
parallel dimension (each against the then-current operands, with the
dimensions read from the original C), rebuild the matmul over the padded
triple reusing the original region, and slice the result back to the
original C shape with zero offsets and unit strides.  The rank-2 and
cross-shape equalities are `assert`ed in the source, not branched on. -/
def padDimensions (op : LinalgGenericOp) : Option (LinalgGenericOp × ExtractSlice) :=
  let A := op.operands.getD 0 defaultVal
  let B := op.operands.getD 1 defaultVal
  let C := op.operands.getD 2 defaultVal
  if !(isShaped C.type) || !(isShaped B.type) || !(isShaped A.type) then none
  else
    let shapeC := getShapeT C.type
    let simdDim := shapeC.getD 1 0
    let parallelDim := shapeC.getD 0 0
    if isCompliant shapeC then none
    else
      let ops1 := padSIMDDimension ⟨A, B, C⟩ simdDim
      let ops2 := padParallelDimension ops1 parallelDim
      let replacement : LinalgGenericOp :=
        { operands := [ops2.A, ops2.B, ops2.C]
          libraryCall := "tpp.matmul"
          hasTensorSemantics := true
          tppMark := true
          indexingMaps := op.indexingMaps
          iteratorTypes := op.iteratorTypes
          region := op.region }
      let rank := shapeC.length
      let extract : ExtractSlice :=
        { offsets := List.replicate rank 0
          sizes := (List.range rank).map fun r => shapeC.getD r 0
          strides := List.replicate rank 1 }
      some (replacement, extract)

/-- `PadSIMDDimensionForGemm::matchAndRewrite`: the eligibility filter
(tensor semantics, fully static shapes, TPP mark, library call equal to
"tpp.matmul") followed by `padDimensions`.  The replacement operation is
built over tensor-typed values with the "tpp.matmul" library call, hence
its tensor-semantics and TPP-mark accessors hold (spec §4.3: the
replacement is re-tagged with the same matrix-multiply intent label). -/
def matchAndRewrite (op : LinalgGenericOp) : Option (LinalgGenericOp × ExtractSlice) :=
  if !op.hasTensorSemantics || !(hasStaticShape op) || !op.tppMark then none
  else if !(op.libraryCall = "tpp.matmul") then none
  else padDimensions op

/-- Verification outcome (`mlir::LogicalResult`). -/
inductive LogicalResult where
  | success
  | failure

/-- `getShape` from `TppTraits.cpp`: the shape of a shaped type, the empty
list otherwise. -/
def getShape (t : MType) : List Int :=
  match t with
  | .shaped s _ => s
  | .scalar _ => []

/-- The per-dimension rule of `isCompatibleInferredReturnShape`: the
inferred and existing dims are compatible when equal, when either is
dynamic, or when the inferred dim is 1; an existing dim of 1 with an
inferred dim greater than 1 is flagged. -/
def isCompatibleDim (dim1 dim2 : Int) : Bool :=
  dim1 = dim2 || isDynamicDim dim1 || isDynamicDim dim2 || dim1 = 1

/-- `isCompatibleInferredReturnShape` from `TppTraits.cpp`. -/
def isCompatibleInferredReturnShape (inferred existing : List Int) : Bool :=
  if inferred.length ≠ existing.length then false
  else (List.zip inferred existing).all fun p => isCompatibleDim p.1 p.2

/-- Modelled from the spec: the per-dimension broadcast rule of the
external `mlir::OpTrait::util::getBroadcastedShape` — two dims are
compatible if equal, if either is 1, or if either is dynamic; the result
extent is the non-1 one when determinable, dynamic otherwise. -/
def broadcastDimPair (d1 d2 : Int) : Option Int :=
  if d1 = d2 then some d1
  else if d1 = 1 then some d2
  else if d2 = 1 then some d1
  else if isDynamicDim d1 || isDynamicDim d2 then some (-1)
  else none

/-- Broadcast of two dimension lists given in trailing-first order. -/
def broadcastRev : List Int → List Int → Option (List Int)
  | [], l2 => some l2
  | d1 :: r1, [] => some (d1 :: r1)
  | d1 :: r1, d2 :: r2 =>
      match broadcastDimPair d1 d2, broadcastRev r1 r2 with
      | some d, some rest => some (d :: rest)
      | _, _ => none

/-- Modelled from the spec: `mlir::OpTrait::util::getBroadcastedShape`
(external to this repository), aligning the two shapes from their
trailing ends. -/
def getBroadcastedShape (s1 s2 : List Int) : Option (List Int) :=
  (broadcastRev s1.reverse s2.reverse).map List.reverse

/-- The broadcast-accumulation loop of `verifyCompatibleOperandBroadcast`:
fold every input shape into the running broadcast, failing on the first
incompatible pair. -/
def broadcastAll (acc : List Int) : List MType → Option (List Int)
  | [] => some acc
  | t :: rest =>
      match getBroadcastedShape acc (getShape t) with
      | none => none
      | some r => broadcastAll r rest

/-- `take_back n` on an `ArrayRef`: the last `n` elements (all of them when
`n` exceeds the length). -/
def takeBack (l : List Int) (n : Nat) : List Int := l.drop (l.length - n)

/-- `verifyCompatibleOperandBroadcast` from `TppTraits.cpp`: empty input
list succeeds; otherwise all input shapes are folded by broadcasting
(the seed broadcast of the first shape with the empty shape never fails),
and the result is compared with the trailing dimensions of the output
shape via `isCompatibleInferredReturnShape`.  Diagnostic emission is
elided: each emission accompanies a failure and does not change the
outcome. -/
def verifyCompatibleOperandBroadcast (inputTypes : List MType) (outputType : MType) :
    LogicalResult :=
  match inputTypes with
  | [] => .success
  | t0 :: _ =>
    match broadcastAll ((getBroadcastedShape (getShape t0) []).getD []) inputTypes with
    | none => .failure
    | some resultShape =>
        let actualSuffix := takeBack (getShape outputType) resultShape.length
        if isCompatibleInferredReturnShape resultShape actualSuffix then .success
        else .failure

/-- An operand as seen by `verifyUnitStrideInnerLoop`: either a value of
non-shaped type, or a memref whose layout either yields a stride list and
an offset or cannot be computed (`getStridesAndOffset` is the external
capability `stridesAndOffset` of spec §6, its outcome carried on the
operand). -/
inductive StrideOperand where
  | nonShaped
  | memref (layout : Option (List Int × Int))

/-- Loop body of `verifyUnitStrideInnerLoop` over the enumerated operands.
A non-shaped operand returns success for the whole operation on the spot;
a layout whose strides cannot be computed fails (with a diagnostic when
requested); an empty stride list fails silently even when diagnostics are
requested; a non-unit innermost stride fails (with a diagnostic when
requested); otherwise the loop advances. -/
def verifyUnitStrideAux (emitDiagnostic : Bool) :
    Nat → List StrideOperand → LogicalResult × List String
  | _, [] => (.success, [])
  | _, .nonShaped :: _ => (.success, [])
  | idx, .memref none :: _ =>
      (.failure,
        if emitDiagnostic then [s!"failed to compute strides for operand {idx}"] else [])
  | idx, .memref (some (strides, _)) :: rest =>
      if strides = [] then (.failure, [])
      else if strides.getLastD 0 ≠ 1 then
        (.failure,
          if emitDiagnostic then
            [s!"non-unit stride in the innermost varying dimension for operand {idx}"]
          else [])
      else verifyUnitStrideAux emitDiagnostic (idx + 1) rest

/-- `verifyUnitStrideInnerLoop` from `TppTraits.cpp`, returning the
outcome together with the diagnostics emitted. -/
def verifyUnitStrideInnerLoop (operands : List StrideOperand) (emitDiagnostic : Bool) :
    LogicalResult × List String :=
  verifyUnitStrideAux emitDiagnostic 0 operands

/-- A memref operand that the unit-stride loop advances past: strides were
computed, are non-empty, and end in 1. -/
def passesUnitStride : StrideOperand → Bool
  | .memref (some (strides, _)) => strides ≠ [] && strides.getLastD 0 = 1
  | _ => false

theorem all_getD {α : Type} (p : α → Bool) (l : List α) (d : α)
    (h : l.all p = true) (hd : p d = true) (i : Nat) : p (l.getD i d) = true := by
  induction l generalizing i with
  | nil => simpa [List.getD]
  | cons a t ih =>
    rw [List.all_cons, Bool.and_eq_true] at h
    cases i with
    | zero => simpa using h.1
    | succ j => simpa using ih h.2 j

theorem range_map_getD (l : List Int) :
    (List.range l.length).map (fun r => l.getD r 0) = l := by
  induction l with
  | nil => simp
  | cons a t ih =>
    rw [List.length_cons, List.range_succ_eq_map, List.map_cons, List.map_map]
    simp only [Function.comp_def, Nat.succ_eq_add_one, List.getD_cons_zero,
      List.getD_cons_succ]
    rw [ih]

theorem paddedSimdTarget_emod (n : Int) : paddedSimdTarget n % 16 = 0 := by
  unfold paddedSimdTarget
  rw [Nat.cast_mul]
  simp [Int.mul_emod_right]

theorem paddedSimdTarget_nonneg (n : Int) : 0 ≤ paddedSimdTarget n := by
  unfold paddedSimdTarget
  exact Int.natCast_nonneg _

theorem paddedParallelTarget_emod (n : Int) : paddedParallelTarget n % 6 = 0 := by
  unfold paddedParallelTarget
  rw [Nat.cast_mul]
  simp [Int.mul_emod_right]

theorem paddedParallelTarget_nonneg (n : Int) : 0 ≤ paddedParallelTarget n := by
  unfold paddedParallelTarget
  exact Int.natCast_nonneg _

theorem unitStrideAux_prefix (e : Bool) (pre rest : List StrideOperand)
    (h : ∀ x ∈ pre, passesUnitStride x = true) (i : Nat) :
    verifyUnitStrideAux e i (pre ++ rest) =
      verifyUnitStrideAux e (i + pre.length) rest := by
  induction pre generalizing i with
  | nil => simp
  | cons x xs ih =>
    have hx := h x (by simp)
    have hxs : ∀ y ∈ xs, passesUnitStride y = true := fun y hy => h y (by simp [hy])
    match x with
    | .nonShaped => simp [passesUnitStride] at hx
    | .memref none => simp [passesUnitStride] at hx
    | .memref (some (strides, off)) =>
      have hx' : strides ≠ [] ∧ strides.getLastD 0 = 1 := by
        simpa [passesUnitStride] using hx
      rw [List.cons_append, verifyUnitStrideAux, if_neg hx'.1,
        if_neg (not_not_intro hx'.2), ih hxs (i + 1)]
      congr 1
      simp only [List.length_cons]
      omega

/-- A concrete GEMM operand triple whose A operand has a different element
type (i32) from B and C (f32); its parallel dimension 5 is not a multiple
of 6, so `padParallelDimension` pads A and C. -/
def mixedTypeOperands : GemmOperands :=
  ⟨Val.v "A" (.shaped [5, 4] (.integer 32)),
   Val.v "B" (.shaped [4, 10] (.float 32)),
   Val.v "C" (.shaped [5, 10] (.float 32))⟩

/-- C1: the pads of C are filled with the zero of C's element type and the
pad of B with the one of B's element type, but the pad of A's leading
dimension is filled with the one of **B's** element type, not A's: at the
input above, the padded A keeps element type i32 while its fill constant
is the f32 one — the two element types differ, contradicting the claim
(and yielding an ill-typed pad in MLIR, where the pad value must have the
source's element type). -/
theorem c1_parallel_pad_fill_from_B :
    Val.padFill ((padSIMDDimension mixedTypeOperands 10).C) =
      some ⟨EType.float 32, getZeroAttr (EType.float 32)⟩ ∧
    Val.padFill ((padSIMDDimension mixedTypeOperands 10).B) =
      some ⟨EType.float 32, getOneAttr (EType.float 32)⟩ ∧
    Val.padFill ((padParallelDimension mixedTypeOperands 5).C) =
      some ⟨EType.float 32, getZeroAttr (EType.float 32)⟩ ∧
    Val.padFill ((padParallelDimension mixedTypeOperands 5).A) =
      some ⟨EType.float 32, getOneAttr (EType.float 32)⟩ ∧
    Val.type ((padParallelDimension mixedTypeOperands 5).A) =
      MType.shaped [6, 4] (EType.integer 32) ∧
    EType.float 32 ≠ EType.integer 32 :=
  ⟨rfl, rfl, rfl, rfl, rfl, fun h => nomatch h⟩

/-- C2: at `shapeC[1] = 2 ^ 24 + 1 = 16777217` the int64-to-float
conversion in `16 * std::ceil((float)simdDim / 16.0)` rounds the extent
down to `2 ^ 24`, so the computed SIMD target is 16777216, which is
smaller than the extent: the claimed bound `c <= target` fails (the
rewrite would "pad" C to a smaller trailing dimension). -/
theorem c2_simd_target_float_truncation :
    paddedSimdTarget 16777217 = 16777216 ∧
    ¬(paddedSimdTarget 16777217 - 16 < 16777217 ∧
      (16777217 : Int) ≤ paddedSimdTarget 16777217) := by
  decide

/-- A concrete all-f32 GEMM operand triple with C shape (5, 10): both the
SIMD dimension 10 and the parallel dimension 5 need padding. -/
def f32Operands : GemmOperands :=
  ⟨Val.v "A" (.shaped [5, 4] (.float 32)),
   Val.v "B" (.shaped [4, 10] (.float 32)),
   Val.v "C" (.shaped [5, 10] (.float 32))⟩

/-- C6 counterexample: every pad built by the transformation passes
`nofold = false` to `tensor::createPadHighOp` (the literal argument
`/*nofold*/ false`), so no padding insertion requests no-fold semantics:
at C shape (5, 10) all four pads carry the flag `false`, refuting the
claim that each pad is created with the fold-forbidding flag. -/
theorem c6_counterexample_nofold_not_requested :
    Val.nofoldFlag ((padSIMDDimension f32Operands 10).C) = some false ∧
    Val.nofoldFlag ((padSIMDDimension f32Operands 10).B) = some false ∧
    Val.nofoldFlag ((padParallelDimension f32Operands 5).C) = some false ∧
    Val.nofoldFlag ((padParallelDimension f32Operands 5).A) = some false ∧
    Val.nofoldFlag ((padSIMDDimension f32Operands 10).C) ≠ some true := by
  decide

/-- C6 as amended: every padding insertion performed by the transformation
is created with `nofold = false`, i.e. the external IR layer is permitted
to fold the pad. -/
theorem c6_amended_pads_allow_folding (ops : GemmOperands) (s p : Int) :
    (s % 16 ≠ 0 →
      Val.nofoldFlag ((padSIMDDimension ops s).C) = some false ∧
      Val.nofoldFlag ((padSIMDDimension ops s).B) = some false) ∧
    (p % 6 ≠ 0 →
      Val.nofoldFlag ((padParallelDimension ops p).C) = some false ∧
      Val.nofoldFlag ((padParallelDimension ops p).A) = some false) := by
  constructor
  · intro hs
    rw [padSIMDDimension, if_neg hs]
    exact ⟨rfl, rfl⟩
  · intro hp
    rw [padParallelDimension, if_neg hp]
    exact ⟨rfl, rfl⟩

theorem c6_amended_pads_allow_folding_witness :
    ((10 : Int) % 16 ≠ 0 ∧ (5 : Int) % 6 ≠ 0) ∧
    (Val.nofoldFlag ((padSIMDDimension f32Operands 10).C) = some false ∧
     Val.nofoldFlag ((padSIMDDimension f32Operands 10).B) = some false) ∧
    (Val.nofoldFlag ((padParallelDimension f32Operands 5).C) = some false ∧
     Val.nofoldFlag ((padParallelDimension f32Operands 5).A) = some false) :=
  ⟨⟨by decide, by decide⟩,
   (c6_amended_pads_allow_folding f32Operands 10 5).1 (by decide),
   (c6_amended_pads_allow_folding f32Operands 10 5).2 (by decide)⟩

/-- The per-dimension compatibility rule as the claim words it: compatible
when the dims are equal, when either is dynamic, or when either is 1. -/
def claimCompatibleDim (d1 d2 : Int) : Bool :=
  d1 = d2 || isDynamicDim d1 || isDynamicDim d2 || d1 = 1 || d2 = 1

/-- C7 counterexample: the code's result comparison is not the symmetric
rule of the claim.  Input shapes (3, 1) and (1, 4) broadcast to (3, 4);
against declared result shape (1, 4) the claim's rule ("either dimension
size 1" is compatible, "size-1 results are tolerated") accepts every
dimension pair, yet `isCompatibleInferredReturnShape` rejects the pair
(3, 1) — only an *inferred* dim of 1 is tolerated — and the check fails. -/
theorem c7_counterexample_result_dim_one_rejected :
    getBroadcastedShape [3, 1] [1, 4] = some [3, 4] ∧
    (List.zip [3, 4] [1, 4]).all (fun p => claimCompatibleDim p.1 p.2) = true ∧
    isCompatibleInferredReturnShape [3, 4] [1, 4] = false ∧
    verifyCompatibleOperandBroadcast
      [.shaped [3, 1] (.float 32), .shaped [1, 4] (.float 32)]
      (.shaped [1, 4] (.float 32)) = .failure :=
  ⟨rfl, rfl, rfl, rfl⟩

/-- C7 as amended: the check compares the computed broadcast of the inputs
against the trailing dimensions of the declared result using the
asymmetric rule of `isCompatibleInferredReturnShape` (equal, either side
dynamic, or inferred dim 1; a size-1 result dim with a larger static
inferred dim is rejected); for inputs (3, 1) and (1, 4) it succeeds with
result (3, 4), fails with (3, 5), fails with the size-1 result (1, 4),
succeeds with the dynamic result (-1, 4), and fails on rank mismatch. -/
theorem c7_amended_asymmetric_result_compare (out : MType) :
    (verifyCompatibleOperandBroadcast
        [.shaped [3, 1] (.float 32), .shaped [1, 4] (.float 32)] out =
      if isCompatibleInferredReturnShape [3, 4] (takeBack (getShape out) 2) then
        .success
      else .failure) ∧
    verifyCompatibleOperandBroadcast
      [.shaped [3, 1] (.float 32), .shaped [1, 4] (.float 32)]
      (.shaped [3, 4] (.float 32)) = .success ∧
    verifyCompatibleOperandBroadcast
      [.shaped [3, 1] (.float 32), .shaped [1, 4] (.float 32)]
      (.shaped [3, 5] (.float 32)) = .failure ∧
    verifyCompatibleOperandBroadcast
      [.shaped [3, 1] (.float 32), .shaped [1, 4] (.float 32)]
      (.shaped [1, 4] (.float 32)) = .failure ∧
    verifyCompatibleOperandBroadcast
      [.shaped [3, 1] (.float 32), .shaped [1, 4] (.float 32)]
      (.shaped [-1, 4] (.float 32)) = .success ∧
    verifyCompatibleOperandBroadcast
      [.shaped [3, 1] (.float 32), .shaped [1, 4] (.float 32)]
      (.shaped [4] (.float 32)) = .failure := by
  exact ⟨rfl, rfl, rfl, rfl, rfl, rfl⟩

/-- C8: whenever the unit-inner-stride check reaches a memory-described
operand (after any run of passing memref operands), it fails — without
crashing — when strides cannot be computed from the layout, when the
computed stride sequence is empty, and when the innermost (last) stride
is not 1; it succeeds for strides (4, 1) and fails for strides (1, 4). -/
theorem c8_unit_stride_failure_modes (e : Bool) (pre post : List StrideOperand)
    (o1 o2 o3 : Int) (strides : List Int)
    (h : pre.all passesUnitStride = true) :
    (verifyUnitStrideInnerLoop (pre ++ .memref none :: post) e).1 = .failure ∧
    (verifyUnitStrideInnerLoop (pre ++ .memref (some ([], o1)) :: post) e).1 = .failure ∧
    (strides.getLastD 0 ≠ 1 →
      (verifyUnitStrideInnerLoop
        (pre ++ .memref (some (strides, o2)) :: post) e).1 = .failure) ∧
    (verifyUnitStrideInnerLoop (pre ++ [.memref (some ([4, 1], o3))]) e).1 = .success ∧
    (verifyUnitStrideInnerLoop (pre ++ [.memref (some ([1, 4], o3))]) e).1 = .failure := by
  have h' : ∀ x ∈ pre, passesUnitStride x = true := List.all_eq_true.mp h
  refine ⟨?_, ?_, ?_, ?_, ?_⟩
  · rw [verifyUnitStrideInnerLoop, unitStrideAux_prefix e pre _ h']
    rfl
  · rw [verifyUnitStrideInnerLoop, unitStrideAux_prefix e pre _ h']
    rfl
  · intro hne
    rw [verifyUnitStrideInnerLoop, unitStrideAux_prefix e pre _ h']
    by_cases hs : strides = []
    · subst hs
      rfl
    · rw [verifyUnitStrideAux, if_neg hs, if_pos hne]
  · rw [verifyUnitStrideInnerLoop, unitStrideAux_prefix e pre _ h']
    rfl
  · rw [verifyUnitStrideInnerLoop, unitStrideAux_prefix e pre _ h']
    rfl

theorem c8_unit_stride_failure_modes_witness :
    [StrideOperand.memref (some ([8, 2, 1], 0))].all passesUnitStride = true ∧
    ((verifyUnitStrideInnerLoop
        ([StrideOperand.memref (some ([8, 2, 1], 0))] ++ .memref none :: []) true).1 =
      .failure ∧
    (verifyUnitStrideInnerLoop
        ([StrideOperand.memref (some ([8, 2, 1], 0))] ++
          .memref (some ([], 0)) :: []) true).1 = .failure ∧
    (([1, 4] : List Int).getLastD 0 ≠ 1 →
      (verifyUnitStrideInnerLoop
          ([StrideOperand.memref (some ([8, 2, 1], 0))] ++
            .memref (some ([1, 4], 0)) :: []) true).1 = .failure) ∧
    (verifyUnitStrideInnerLoop
        ([StrideOperand.memref (some ([8, 2, 1], 0))] ++
          [.memref (some ([4, 1], 0))]) true).1 = .success ∧
    (verifyUnitStrideInnerLoop
        ([StrideOperand.memref (some ([8, 2, 1], 0))] ++
          [.memref (some ([1, 4], 0))]) true).1 = .failure) :=
  ⟨by decide,
   c8_unit_stride_failure_modes true [.memref (some ([8, 2, 1], 0))] [] 0 0 0 [1, 4]
     (by decide)⟩

/-- C9: when the operand list contains a non-shaped operand, the check
returns success for the whole operation the moment that operand is
reached (after any run of passing memref operands), regardless of the
strides of every operand after it. -/
theorem c9_nonshaped_short_circuits_success (e : Bool) (pre post : List StrideOperand)
    (h : pre.all passesUnitStride = true) :
    verifyUnitStrideInnerLoop (pre ++ .nonShaped :: post) e = (.success, []) := by
  rw [verifyUnitStrideInnerLoop,
    unitStrideAux_prefix e pre _ (List.all_eq_true.mp h)]
  rfl

theorem c9_nonshaped_short_circuits_success_witness :
    [StrideOperand.memref (some ([4, 1], 0))].all passesUnitStride = true ∧
    verifyUnitStrideInnerLoop
      ([StrideOperand.memref (some ([4, 1], 0))] ++
        .nonShaped :: [.memref (some ([1, 4], 0))]) true = (.success, []) :=
  ⟨by decide,
   c9_nonshaped_short_circuits_success true [.memref (some ([4, 1], 0))]
     [.memref (some ([1, 4], 0))] (by decide)⟩

/-- C10: with diagnostics requested, the empty-stride-sequence branch of
the unit-inner-stride check returns failure without emitting any
diagnostic, while the stride-computation-failure branch and the
non-unit-innermost-stride branch each emit exactly one. -/
theorem c10_empty_stride_branch_is_silent (pre post : List StrideOperand)
    (o1 o2 : Int) (strides : List Int)
    (h : pre.all passesUnitStride = true) :
    verifyUnitStrideInnerLoop (pre ++ .memref (some ([], o1)) :: post) true =
      (.failure, []) ∧
    (verifyUnitStrideInnerLoop (pre ++ .memref none :: post) true).2.length = 1 ∧
    (strides ≠ [] → strides.getLastD 0 ≠ 1 →
      (verifyUnitStrideInnerLoop
        (pre ++ .memref (some (strides, o2)) :: post) true).2.length = 1) := by
  have h' : ∀ x ∈ pre, passesUnitStride x = true := List.all_eq_true.mp h
  refine ⟨?_, ?_, ?_⟩
  · rw [verifyUnitStrideInnerLoop, unitStrideAux_prefix true pre _ h']
    rfl
  · rw [verifyUnitStrideInnerLoop, unitStrideAux_prefix true pre _ h']
    rfl
  · intro hne hlast
    rw [verifyUnitStrideInnerLoop, unitStrideAux_prefix true pre _ h',
      verifyUnitStrideAux, if_neg hne, if_pos hlast]
    rfl

theorem c10_empty_stride_branch_is_silent_witness :
    [StrideOperand.memref (some ([2, 1], 0))].all passesUnitStride = true ∧
    (verifyUnitStrideInnerLoop
        ([StrideOperand.memref (some ([2, 1], 0))] ++
          .memref (some ([], 0)) :: []) true = (.failure, []) ∧
    (verifyUnitStrideInnerLoop
        ([StrideOperand.memref (some ([2, 1], 0))] ++ .memref none :: []) true).2.length =
      1 ∧
    (([4, 2] : List Int) ≠ [] → ([4, 2] : List Int).getLastD 0 ≠ 1 →
      (verifyUnitStrideInnerLoop
          ([StrideOperand.memref (some ([2, 1], 0))] ++
            .memref (some ([4, 2], 0)) :: []) true).2.length = 1)) :=
  ⟨by decide,
   c10_empty_stride_branch_is_silent [.memref (some ([2, 1], 0))] [] 0 0 [4, 2]
     (by decide)⟩

/-- C5: when C's trailing dimension is a multiple of 16 and its leading
dimension a multiple of 6, the compliance test reports compliant and the
pattern performs no rewrite: `matchAndRewrite` returns the no-match
outcome whatever the remaining operands and eligibility flags are. -/
theorem c5_compliant_shapes_not_rewritten (op : LinalgGenericOp) (m n : Int)
    (e : EType)
    (hC : (op.operands.getD 2 defaultVal).type = MType.shaped [m, n] e)
    (h16 : n % 16 = 0) (h6 : m % 6 = 0) :
    isCompliant [m, n] = true ∧ matchAndRewrite op = none := by
  have hcomp : isCompliant [m, n] = true := by
    simp [isCompliant, h16, h6]
  refine ⟨hcomp, ?_⟩
  rw [matchAndRewrite]
  split
  · rfl
  split
  · rfl
  rw [padDimensions]
  simp only [hC, getShapeT, isShaped, Bool.not_true, Bool.false_or]
  split
  · rfl
  simp [hcomp]

/-- Already compliant GEMM operation with C shape (12, 32). -/
def compliantGemmOp : LinalgGenericOp :=
  { operands := [Val.v "A" (.shaped [12, 4] (.float 32)),
                 Val.v "B" (.shaped [4, 32] (.float 32)),
                 Val.v "C" (.shaped [12, 32] (.float 32))]
    libraryCall := "tpp.matmul"
    hasTensorSemantics := true
    tppMark := true
    indexingMaps := "affine_maps"
    iteratorTypes := "parallel,parallel,reduction"
    region := "mul-add body" }

theorem c5_compliant_shapes_not_rewritten_witness :
    ((compliantGemmOp.operands.getD 2 defaultVal).type =
        MType.shaped [12, 32] (EType.float 32) ∧
      (32 : Int) % 16 = 0 ∧ (12 : Int) % 6 = 0) ∧
    isCompliant [12, 32] = true ∧ matchAndRewrite compliantGemmOp = none :=
  ⟨⟨rfl, by decide, by decide⟩,
   c5_compliant_shapes_not_rewritten compliantGemmOp 12 32 (.float 32)
     rfl (by decide) (by decide)⟩

/-- C3: whenever the pattern rewrites an operation, the extraction built
after the padded matmul uses offset 0 and stride 1 in every dimension and
sizes equal to the original (pre-padding) shape of C, so its output shape
is exactly the original C shape, however much padding was added. -/
theorem c3_extraction_restores_original_C_shape (op rep : LinalgGenericOp)
    (ext : ExtractSlice)
    (hRw : matchAndRewrite op = some (rep, ext)) :
    ext.offsets =
      List.replicate (getShapeT (op.operands.getD 2 defaultVal).type).length 0 ∧
    ext.strides =
      List.replicate (getShapeT (op.operands.getD 2 defaultVal).type).length 1 ∧
    ext.sizes = getShapeT (op.operands.getD 2 defaultVal).type := by
  rw [matchAndRewrite] at hRw
  split at hRw
  · exact absurd hRw (by simp)
  split at hRw
  · exact absurd hRw (by simp)
  rw [padDimensions] at hRw
  dsimp only [] at hRw
  split at hRw
  · exact absurd hRw (by simp)
  split at hRw
  · exact absurd hRw (by simp)
  rw [Option.some.injEq, Prod.mk.injEq] at hRw
  obtain ⟨hrep, hext⟩ := hRw
  subst hext
  refine ⟨rfl, rfl, ?_⟩
  exact range_map_getD _

theorem operandStatic_getD (v : Val) (h : operandStatic v = true) (i : Nat) :
    (!(isDynamicDim ((getShapeT v.type).getD i 0))) = true := by
  rw [operandStatic] at h
  cases ht : v.type with
  | shaped s e =>
    rw [ht] at h
    simp only [getShapeT]
    exact all_getD (fun d => !(isDynamicDim d)) s 0 h (by decide) i
  | scalar e =>
    simp [getShapeT, List.getD_nil, isDynamicDim]

theorem nondyn_simdTarget (s : Int) :
    (!(isDynamicDim (paddedSimdTarget s))) = true := by
  have h := paddedSimdTarget_nonneg s
  simp only [isDynamicDim, Bool.not_eq_true', decide_eq_false_iff_not]
  omega

theorem nondyn_parallelTarget (p : Int) :
    (!(isDynamicDim (paddedParallelTarget p))) = true := by
  have h := paddedParallelTarget_nonneg p
  simp only [isDynamicDim, Bool.not_eq_true', decide_eq_false_iff_not]
  omega

theorem padSIMDDimension_ok (ops : GemmOperands) (s : Int)
    (hA : isShaped ops.A.type = true) (hB : isShaped ops.B.type = true)
    (hC : isShaped ops.C.type = true)
    (stA : operandStatic ops.A = true) (stB : operandStatic ops.B = true)
    (stC : operandStatic ops.C = true) :
    (isShaped (padSIMDDimension ops s).A.type = true ∧
      isShaped (padSIMDDimension ops s).B.type = true ∧
      isShaped (padSIMDDimension ops s).C.type = true) ∧
    (operandStatic (padSIMDDimension ops s).A = true ∧
      operandStatic (padSIMDDimension ops s).B = true ∧
      operandStatic (padSIMDDimension ops s).C = true) := by
  rw [padSIMDDimension]
  split
  · exact ⟨⟨hA, hB, hC⟩, stA, stB, stC⟩
  refine ⟨⟨hA, rfl, rfl⟩, stA, ?_, ?_⟩
  · rw [operandStatic]
    simp only [Val.type, List.all_cons, List.all_nil, Bool.and_true, Bool.and_eq_true]
    exact ⟨operandStatic_getD ops.B stB 0, nondyn_simdTarget s⟩
  · rw [operandStatic]
    simp only [Val.type, List.all_cons, List.all_nil, Bool.and_true, Bool.and_eq_true]
    exact ⟨operandStatic_getD ops.C stC 0, nondyn_simdTarget s⟩

theorem padParallelDimension_ok (ops : GemmOperands) (p : Int)
    (hA : isShaped ops.A.type = true) (hB : isShaped ops.B.type = true)
    (hC : isShaped ops.C.type = true)
    (stA : operandStatic ops.A = true) (stB : operandStatic ops.B = true)
    (stC : operandStatic ops.C = true) :
    (isShaped (padParallelDimension ops p).A.type = true ∧
      isShaped (padParallelDimension ops p).B.type = true ∧
      isShaped (padParallelDimension ops p).C.type = true) ∧
    (operandStatic (padParallelDimension ops p).A = true ∧
      operandStatic (padParallelDimension ops p).B = true ∧
      operandStatic (padParallelDimension ops p).C = true) := by
  rw [padParallelDimension]
  split
  · exact ⟨⟨hA, hB, hC⟩, stA, stB, stC⟩
  refine ⟨⟨rfl, hB, rfl⟩, ?_, stB, ?_⟩
  · rw [operandStatic]
    simp only [Val.type, List.all_cons, List.all_nil, Bool.and_true, Bool.and_eq_true]
    exact ⟨nondyn_parallelTarget p, operandStatic_getD ops.A stA 1⟩
  · rw [operandStatic]
    simp only [Val.type, List.all_cons, List.all_nil, Bool.and_true, Bool.and_eq_true]
    exact ⟨nondyn_parallelTarget p, operandStatic_getD ops.C stC 1⟩

theorem padSIMDDimension_skip (ops : GemmOperands) (s : Int) (h : s % 16 = 0) :
    padSIMDDimension ops s = ops := by
  rw [padSIMDDimension, if_pos h]

theorem padParallelDimension_skip (ops : GemmOperands) (p : Int) (h : p % 6 = 0) :
    padParallelDimension ops p = ops := by
  rw [padParallelDimension, if_pos h]

theorem padSIMDDimension_C_type (ops : GemmOperands) (s : Int) (h : ¬ s % 16 = 0) :
    (padSIMDDimension ops s).C.type =
      MType.shaped [(getShapeT ops.C.type).getD 0 0, paddedSimdTarget s]
        (elemOfT ops.C.type) := by
  rw [padSIMDDimension, if_neg h]
  rfl

theorem padParallelDimension_C_type (ops : GemmOperands) (p : Int) (h : ¬ p % 6 = 0) :
    (padParallelDimension ops p).C.type =
      MType.shaped [paddedParallelTarget p, (getShapeT ops.C.type).getD 1 0]
        (elemOfT ops.C.type) := by
  rw [padParallelDimension, if_neg h]
  rfl

theorem padPipeline_C_compliant (ops : GemmOperands) (sC : List Int) (eC : EType)
    (hCt : ops.C.type = MType.shaped sC eC)
    (hnc : isCompliant sC = false) :
    isCompliant (getShapeT (padParallelDimension
      (padSIMDDimension ops (sC.getD 1 0)) (sC.getD 0 0)).C.type) = true := by
  have hnc' : ¬(sC.getD 1 0 % 16 = 0 ∧ sC.getD 0 0 % 6 = 0) := by
    intro hand
    rw [isCompliant, hand.1, hand.2] at hnc
    exact absurd hnc (by decide)
  by_cases h16 : sC.getD 1 0 % 16 = 0
  · have h6 : ¬ sC.getD 0 0 % 6 = 0 := fun h => hnc' ⟨h16, h⟩
    rw [padSIMDDimension_skip _ _ h16, padParallelDimension_C_type _ _ h6, hCt]
    simp only [getShapeT]
    rw [isCompliant]
    simp only [List.getD_cons_succ, List.getD_cons_zero]
    rw [Bool.and_eq_true, decide_eq_true_iff, decide_eq_true_iff]
    exact ⟨h16, paddedParallelTarget_emod _⟩
  · by_cases h6 : sC.getD 0 0 % 6 = 0
    · rw [padParallelDimension_skip _ _ h6, padSIMDDimension_C_type _ _ h16, hCt]
      simp only [getShapeT]
      rw [isCompliant]
      simp only [List.getD_cons_succ, List.getD_cons_zero]
      rw [Bool.and_eq_true, decide_eq_true_iff, decide_eq_true_iff]
      exact ⟨paddedSimdTarget_emod _, h6⟩
    · rw [padParallelDimension_C_type _ _ h6, padSIMDDimension_C_type _ _ h16, hCt]
      simp only [getShapeT]
      rw [isCompliant]
      simp only [List.getD_cons_succ, List.getD_cons_zero]
      rw [Bool.and_eq_true, decide_eq_true_iff, decide_eq_true_iff]
      exact ⟨paddedSimdTarget_emod _, paddedParallelTarget_emod _⟩

/-- C4: whenever the pattern rewrites an operation, the replacement's C
operand satisfies both divisibility constraints (trailing dimension
multiple of 16, leading dimension multiple of 6), and re-applying the
pattern to the replacement yields no match: the fixed point is reached
after one rewrite. -/
theorem c4_rewrite_reaches_fixed_point (op rep : LinalgGenericOp) (ext : ExtractSlice)
    (hRw : matchAndRewrite op = some (rep, ext)) :
    isCompliant (getShapeT (rep.operands.getD 2 defaultVal).type) = true ∧
    matchAndRewrite rep = none := by
  rw [matchAndRewrite] at hRw
  split at hRw
  · exact absurd hRw (by simp)
  rename_i hElig
  split at hRw
  · exact absurd hRw (by simp)
  rw [padDimensions] at hRw
  dsimp only [] at hRw
  split at hRw
  · exact absurd hRw (by simp)
  rename_i hShaped
  split at hRw
  · exact absurd hRw (by simp)
  rename_i hNCompl
  rw [Option.some.injEq, Prod.mk.injEq] at hRw
  obtain ⟨hrep, hext⟩ := hRw
  have hStat : hasStaticShape op = true := by
    cases hSt : hasStaticShape op
    · exact absurd (by rw [hSt]; simp) hElig
    · rfl
  have hCsh : isShaped (op.operands.getD 2 defaultVal).type = true := by
    cases h2 : isShaped (op.operands.getD 2 defaultVal).type
    · exact absurd (by rw [h2]; simp) hShaped
    · rfl
  have hBsh : isShaped (op.operands.getD 1 defaultVal).type = true := by
    cases h2 : isShaped (op.operands.getD 1 defaultVal).type
    · exact absurd (by rw [h2]; simp) hShaped
    · rfl
  have hAsh : isShaped (op.operands.getD 0 defaultVal).type = true := by
    cases h2 : isShaped (op.operands.getD 0 defaultVal).type
    · exact absurd (by rw [h2]; simp) hShaped
    · rfl
  rw [Bool.not_eq_true] at hNCompl
  rw [hasStaticShape] at hStat
  have stA : operandStatic (op.operands.getD 0 defaultVal) = true :=
    all_getD operandStatic op.operands defaultVal hStat (by decide) 0
  have stB : operandStatic (op.operands.getD 1 defaultVal) = true :=
    all_getD operandStatic op.operands defaultVal hStat (by decide) 1
  have stC : operandStatic (op.operands.getD 2 defaultVal) = true :=
    all_getD operandStatic op.operands defaultVal hStat (by decide) 2
  obtain ⟨sC, eC, hCt⟩ :
      ∃ s e, (op.operands.getD 2 defaultVal).type = MType.shaped s e := by
    cases hct : (op.operands.getD 2 defaultVal).type with
    | shaped s e => exact ⟨s, e, rfl⟩
    | scalar e => rw [hct] at hCsh; simp [isShaped] at hCsh
  rw [hCt] at hNCompl
  simp only [getShapeT] at hNCompl
  rw [hCt] at hrep
  simp only [getShapeT] at hrep
  obtain ⟨⟨hA1, hB1, hC1⟩, sA1, sB1, sC1⟩ :=
    padSIMDDimension_ok
      ⟨op.operands.getD 0 defaultVal, op.operands.getD 1 defaultVal,
        op.operands.getD 2 defaultVal⟩
      (sC.getD 1 0) hAsh hBsh hCsh stA stB stC
  obtain ⟨⟨hA2, hB2, hC2⟩, sA2, sB2, sC2⟩ :=
    padParallelDimension_ok
      (padSIMDDimension
        ⟨op.operands.getD 0 defaultVal, op.operands.getD 1 defaultVal,
          op.operands.getD 2 defaultVal⟩ (sC.getD 1 0))
      (sC.getD 0 0) hA1 hB1 hC1 sA1 sB1 sC1
  have hPipeC : isCompliant (getShapeT (padParallelDimension
      (padSIMDDimension
        ⟨op.operands.getD 0 defaultVal, op.operands.getD 1 defaultVal,
          op.operands.getD 2 defaultVal⟩ (sC.getD 1 0))
      (sC.getD 0 0)).C.type) = true :=
    padPipeline_C_compliant _ sC eC hCt hNCompl
  have hRepOps : rep.operands = [
      (padParallelDimension
        (padSIMDDimension
          ⟨op.operands.getD 0 defaultVal, op.operands.getD 1 defaultVal,
            op.operands.getD 2 defaultVal⟩ (sC.getD 1 0)) (sC.getD 0 0)).A,
      (padParallelDimension
        (padSIMDDimension
          ⟨op.operands.getD 0 defaultVal, op.operands.getD 1 defaultVal,
            op.operands.getD 2 defaultVal⟩ (sC.getD 1 0)) (sC.getD 0 0)).B,
      (padParallelDimension
        (padSIMDDimension
          ⟨op.operands.getD 0 defaultVal, op.operands.getD 1 defaultVal,
            op.operands.getD 2 defaultVal⟩ (sC.getD 1 0)) (sC.getD 0 0)).C] := by
    rw [← hrep]
  have hRepTS : rep.hasTensorSemantics = true := by rw [← hrep]
  have hRepMark : rep.tppMark = true := by rw [← hrep]
  have hRepLib : rep.libraryCall = "tpp.matmul" := by rw [← hrep]
  have hOp0 : rep.operands.getD 0 defaultVal = (padParallelDimension
        (padSIMDDimension
          ⟨op.operands.getD 0 defaultVal, op.operands.getD 1 defaultVal,
            op.operands.getD 2 defaultVal⟩ (sC.getD 1 0)) (sC.getD 0 0)).A := by rw [← hrep]; rfl
  have hOp1 : rep.operands.getD 1 defaultVal = (padParallelDimension
        (padSIMDDimension
          ⟨op.operands.getD 0 defaultVal, op.operands.getD 1 defaultVal,
            op.operands.getD 2 defaultVal⟩ (sC.getD 1 0)) (sC.getD 0 0)).B := by rw [← hrep]; rfl
  have hOp2 : rep.operands.getD 2 defaultVal = (padParallelDimension
        (padSIMDDimension
          ⟨op.operands.getD 0 defaultVal, op.operands.getD 1 defaultVal,
            op.operands.getD 2 defaultVal⟩ (sC.getD 1 0)) (sC.getD 0 0)).C := by rw [← hrep]; rfl
  refine ⟨?_, ?_⟩
  · rw [hOp2]
    exact hPipeC
  · have hStatRep : hasStaticShape rep = true := by
      rw [hasStaticShape, hRepOps]
      simp only [List.all_cons, List.all_nil, Bool.and_true, Bool.and_eq_true]
      exact ⟨sA2, sB2, sC2⟩
    rw [matchAndRewrite]
    rw [if_neg (by simp [hRepTS, hRepMark, hStatRep])]
    rw [if_neg (by simp [hRepLib])]
    rw [padDimensions]
    dsimp only []
    rw [hOp0, hOp1, hOp2]
    rw [if_neg (by rw [hC2, hB2, hA2]; decide)]
    rw [if_pos hPipeC]

/-- The spec's scenario: non-compliant GEMM with C shape (5, 10),
A shape (5, 4), B shape (4, 10), all f32. -/
def nonCompliantGemmOp : LinalgGenericOp :=
  { operands := [Val.v "A" (.shaped [5, 4] (.float 32)),
                 Val.v "B" (.shaped [4, 10] (.float 32)),
                 Val.v "C" (.shaped [5, 10] (.float 32))]
    libraryCall := "tpp.matmul"
    hasTensorSemantics := true
    tppMark := true
    indexingMaps := "affine_maps"
    iteratorTypes := "parallel,parallel,reduction"
    region := "mul-add body" }

/-- The rewrite result the pattern produces on `nonCompliantGemmOp`. -/
def rewrittenGemm : LinalgGenericOp × ExtractSlice :=
  (matchAndRewrite nonCompliantGemmOp).getD (nonCompliantGemmOp, ⟨[], [], []⟩)

theorem c3_extraction_restores_original_C_shape_witness :
    matchAndRewrite nonCompliantGemmOp = some rewrittenGemm ∧
    (rewrittenGemm.2.offsets =
        List.replicate
          (getShapeT (nonCompliantGemmOp.operands.getD 2 defaultVal).type).length 0 ∧
      rewrittenGemm.2.strides =
        List.replicate
          (getShapeT (nonCompliantGemmOp.operands.getD 2 defaultVal).type).length 1 ∧
      rewrittenGemm.2.sizes =
        getShapeT (nonCompliantGemmOp.operands.getD 2 defaultVal).type) :=
  ⟨rfl,
   c3_extraction_restores_original_C_shape nonCompliantGemmOp
     rewrittenGemm.1 rewrittenGemm.2 rfl⟩

theorem c4_rewrite_reaches_fixed_point_witness :
    matchAndRewrite nonCompliantGemmOp = some rewrittenGemm ∧
    (isCompliant (getShapeT (rewrittenGemm.1.operands.getD 2 defaultVal).type) = true ∧
      matchAndRewrite rewrittenGemm.1 = none) :=
  ⟨rfl,
   c4_rewrite_reaches_fixed_point nonCompliantGemmOp
     rewrittenGemm.1 rewrittenGemm.2 rfl⟩
